import Mathlib

/-!
Shallow embedding of the booking-scraper repository (src/utils.js,
src/extractors.js, src/scraper.js, src/server.js, src/config.js).

Modelling conventions:
* JS strings are Lean `String`s; the string algorithms the code relies on
  (`includes`, single-occurrence `replace`, `trim`, `toLowerCase`,
  the few regexes) are re-implemented on `List Char` exactly as the JS
  semantics prescribe (notably: `String.prototype.replace` with a string or
  non-global regex pattern rewrites only the *first* occurrence).
* `page.evaluate` blocks are pure functions of a projection of the DOM:
  each extractor takes, as input, the query results the block reads
  (texts of matched elements, `none` when `querySelector` returns null).
* Selector cascades whose outcome no claim depends on (hotel name, address,
  description, check-in/check-out scan) are abstracted as
  environment-provided query results carried in `PageModel`.
* Wall-clock values (`Date.now()`, `toISOString()`) are parameters.
* Whitespace (`\s`, `trim`) is modelled with `Char.isWhitespace`.
-/

namespace BookingScraper

/-! ### JS string primitives on `List Char` -/

/-- JS `String.prototype.includes(pat)`: `pat` occurs contiguously in the
receiver.  `includesL pat s` scans positions left to right. -/
def includesL (pat : List Char) : List Char → Bool
  | [] => pat.isPrefixOf []
  | c :: cs => pat.isPrefixOf (c :: cs) || includesL pat cs

/-- JS `String.prototype.includes`. -/
def strIncludes (s pat : String) : Bool := includesL pat.data s.data

/-- JS `String.prototype.replace(pat, rep)` with a string (or non-global
regex) pattern: only the first occurrence of `pat` is rewritten. -/
def replaceFirstL (pat rep : List Char) : List Char → List Char
  | [] => if pat.isPrefixOf ([] : List Char) then rep else []
  | c :: cs =>
    if pat.isPrefixOf (c :: cs) then rep ++ (c :: cs).drop pat.length
    else c :: replaceFirstL pat rep cs

/-- JS `s.replace(pat, rep)` (first occurrence only). -/
def jsReplaceFirst (s pat rep : String) : String :=
  ⟨replaceFirstL pat.data rep.data s.data⟩

/-- JS `String.prototype.trim()`. -/
def trimL (s : List Char) : List Char :=
  ((s.dropWhile Char.isWhitespace).reverse.dropWhile Char.isWhitespace).reverse

/-- JS `s.trim()`. -/
def jsTrim (s : String) : String := ⟨trimL s.data⟩

/-- JS `String.prototype.toLowerCase()` (ASCII enough for this code base). -/
def lowerL (s : List Char) : List Char := s.map Char.toLower

/-- Case-insensitive "starts with `pat`" where `pat` is already lower-case:
the `/i` flag on anchored regex alternatives such as `^(Restaurant|...)`. -/
def ciStartsL (s pat : List Char) : Bool := pat.isPrefixOf (lowerL s)

/-- Case-insensitive prefix test on `String`s (`pat` lower-case). -/
def ciStarts (s pat : String) : Bool := ciStartsL s.data pat.data

/-- Digits of a decimal numeral to a `Nat` (the happy path of `parseInt`). -/
def digitsVal (s : List Char) : Nat := s.foldl (fun n c => n * 10 + (c.toNat - 48)) 0

/-- JS `parseInt(s, 10)`: leading whitespace skipped, maximal digit run
parsed; an empty digit run gives `NaN`, modelled as `none` (a `NaN` count
serialises to JSON `null`, as a missing value does). -/
def parseIntDec (s : List Char) : Option Nat :=
  let ds := (s.dropWhile Char.isWhitespace).takeWhile Char.isDigit
  if ds.isEmpty then none else some (digitsVal ds)

/-! ### utils.js -/

/-- utils.js `isValidBookingUrl(url)`: literally
`url && url.includes("booking.com/hotel")`.  A missing body field is `none`;
the empty string is JS-falsy, so `&&` short-circuits on it. -/
def isValidBookingUrl : Option String → Bool
  | none => false
  | some url => !(url == "") && strIncludes url "booking.com/hotel"

/-- A JS object as an ordered association list with unique keys.  Assigning
to an existing key overwrites its value in place; a new key is appended --
exactly the property-order semantics of object literals and spreads. -/
def objInsert (o : List (String × String)) (k v : String) : List (String × String) :=
  if ∃ q ∈ o, q.1 = k then o.map (fun p => if p.1 = k then (k, v) else p)
  else o ++ [(k, v)]

/-- JS property read on the object model: the value at key `k`, if any. -/
def lookupKey (k : String) : List (String × String) → Option String
  | [] => none
  | (k', v) :: ps => if k' = k then some v else lookupKey k ps

/-- The entry pushed by utils.js `addStep`: the object literal
`{ timestamp: ..., step, ...details }` -- the spread of `details` comes
*after* the two fixed fields, so a `details` key named `timestamp` or
`step` overwrites them.  Detail payloads are modelled as string-valued
key/value lists. -/
def mkStepEntry (timestamp step : String) (details : List (String × String)) :
    List (String × String) :=
  details.foldl (fun o kv => objInsert o kv.1 kv.2) [("timestamp", timestamp), ("step", step)]

/-- The mutable diagnostics record created by utils.js `createDiagnostics`. -/
structure Diagnostics where
  sessionId : String
  steps : List (List (String × String))
  screenshots : List String

/-- utils.js `addStep(step, details)`: pushes one entry onto `steps`.
`timestamp` is the environmental `new Date().toISOString()` value. -/
def addStep (d : Diagnostics) (timestamp step : String)
    (details : List (String × String)) : Diagnostics :=
  { d with steps := d.steps ++ [mkStepEntry timestamp step details] }

/-! ### extractors.js: rating -/

/-- Result shape of `extractRating`. -/
structure Rating where
  score : Option String
  totalReviews : Option Nat
deriving DecidableEq

/-- Per-element pipeline in `extractRating`:
`div.textContent.trim().replace(",", ".")` (first comma only). -/
def ratingElement (t : String) : String := jsReplaceFirst (jsTrim t) "," "."

/-- First match of the regex `[\d\s]+`: the leftmost maximal run of
digit-or-whitespace characters, `none` when no such character occurs. -/
def firstDigitSpaceRun : List Char → Option (List Char)
  | [] => none
  | c :: cs =>
    if c.isDigit || c.isWhitespace then
      some ((c :: cs).takeWhile (fun ch => ch.isDigit || ch.isWhitespace))
    else firstDigitSpaceRun cs

/-- extractors.js `extractRating`: input is the list of texts of the
`div[aria-hidden="true"]` elements inside the score container, or `none`
when the container itself is absent.  The surrounding `try`/`catch` makes
the JS function total; the embedding is total by construction. -/
def extractRating (container : Option (List String)) : Rating :=
  match container with
  | none => { score := none, totalReviews := none }
  | some texts =>
    let elements := texts.map ratingElement
    let text := elements.getD 1 ""
    let e0 := elements.getD 0 ""
    { score := if e0 = "" then none else some e0
      totalReviews :=
        match firstDigitSpaceRun text.data with
        | none => none
        | some run => parseIntDec (run.filter (fun c => !c.isWhitespace)) }

/-! ### extractors.js: de-duplication (the JS `Set`-based patterns) -/

/-- Keep-first de-duplication by a key, with the already-seen keys threaded
through -- the `seen = new Set(); list.filter(...)` pattern of
`extractReviews`/`extractNearbyPlaces`, and (with `key = id`)
`[...new Set(xs)]`. -/
def dedupByKey {α β : Type} [DecidableEq β] (key : α → β) :
    List β → List α → List α
  | _, [] => []
  | seen, x :: xs =>
    if key x ∈ seen then dedupByKey key seen xs
    else x :: dedupByKey key (key x :: seen) xs

/-- `[...new Set(xs)]` on strings: first-seen order, exact duplicates gone. -/
def dedupStr (xs : List String) : List String := dedupByKey id [] xs

/-! ### extractors.js: reviews -/

/-- DOM projection of one `[data-testid="featuredreview"]` block: the texts
of the name, country and review-text sub-elements (when found). -/
structure RawReview where
  nameEl : Option String
  countryEl : Option String
  textEl : Option String

/-- An emitted review record. -/
structure Review where
  name : String
  country : String
  text : String
deriving DecidableEq

/-- Leading character class of the quote-strip regex:
`[\s“"«»]` (whitespace, U+201C, ASCII quote, guillemets). -/
def isOpenQuote (c : Char) : Bool :=
  c.isWhitespace || c == '“' || c == '"' || c == '«' || c == '»'

/-- Trailing character class of the quote-strip regex:
`[\s”"«»]` (whitespace, U+201D, ASCII quote, guillemets). -/
def isCloseQuote (c : Char) : Bool :=
  c.isWhitespace || c == '”' || c == '"' || c == '«' || c == '»'

/-- The `/^[\s“"«»]+|[\s”"«»]+$/g` replace: strip the leading open-quote
run and the trailing close-quote run. -/
def stripQuotesL (s : List Char) : List Char :=
  ((s.dropWhile isOpenQuote).reverse.dropWhile isCloseQuote).reverse

/-- Build one review record from a block (`?.textContent.trim() || ""`
pattern; the text additionally stripped of quote marks). -/
def mkReview (r : RawReview) : Review :=
  { name := (r.nameEl.map jsTrim).getD ""
    country := (r.countryEl.map jsTrim).getD ""
    text :=
      match r.textEl with
      | none => ""
      | some t => ⟨stripQuotesL (trimL t.data)⟩ }

/-- extractors.js `extractReviews`: map the blocks, then de-duplicate by
review text keeping the first occurrence. -/
def extractReviews (blocks : List RawReview) : List Review :=
  dedupByKey (fun r => r.text) [] (blocks.map mkReview)

/-! ### extractors.js: nearby places -/

/-- DOM projection of one `li` inside a poi block. -/
structure PoiItem where
  nameEl : Option String
  distanceEl : Option String

/-- DOM projection of one `[data-testid="poi-block"]`. -/
structure PoiBlock where
  heading : Option String
  items : List PoiItem

/-- An emitted nearby-place record. -/
structure Place where
  place : String
  distance : String
  type : String
deriving DecidableEq

/-- The stripped category alternatives of `/^(Restaurant|Train|Airport)\s*/i`,
lower-cased. -/
def catList : List String := ["restaurant", "train", "airport"]

/-- `replace(/^(Restaurant|Train|Airport)\s*/i, "")` on the char list:
drop one case-insensitive leading category word plus following whitespace
(the `\s*` may also match the empty string, as in the regex). -/
def stripCatL (s : List Char) : List Char :=
  if ciStartsL s "restaurant".data then (s.drop 10).dropWhile Char.isWhitespace
  else if ciStartsL s "train".data then (s.drop 5).dropWhile Char.isWhitespace
  else if ciStartsL s "airport".data then (s.drop 7).dropWhile Char.isWhitespace
  else s

/-- String wrapper of `stripCatL`. -/
def stripCat (s : String) : String := ⟨stripCatL s.data⟩

/-- Does `s` begin (case-insensitively) with one of the category words? -/
def beginsCat (s : String) : Bool := catList.any (fun w => ciStarts s w)

/-- `s` begins with a category word and, once that word and the following
whitespace are removed, begins with a category word again (a doubled
category word). -/
def doubledCat (s : String) : Bool :=
  catList.any (fun w =>
    ciStarts s w && beginsCat ⟨(s.data.drop w.length).dropWhile Char.isWhitespace⟩)

/-- `block.querySelector("h3 div")?.textContent.trim().toLowerCase() || ""`. -/
def blockType (b : PoiBlock) : String :=
  match b.heading with
  | none => ""
  | some h => ⟨lowerL (trimL h.data)⟩

/-- Build one place record from an item of a block of type `ty`. -/
def mkPlace (ty : String) (it : PoiItem) : Place :=
  { place := stripCat ((it.nameEl.map jsTrim).getD "")
    distance := (it.distanceEl.map jsTrim).getD ""
    type := ty }

/-- The dedup key `` `${item.place}|${item.distance}` ``. -/
def placeKey (p : Place) : String := p.place ++ "|" ++ p.distance

/-- All records before de-duplication (the `flatMap` over poi blocks). -/
def allPlaces (blocks : List PoiBlock) : List Place :=
  blocks.flatMap (fun b => b.items.map (mkPlace (blockType b)))

/-- extractors.js `extractNearbyPlaces`. -/
def extractNearbyPlaces (blocks : List PoiBlock) : List Place :=
  dedupByKey placeKey [] (allPlaces blocks)

/-! ### extractors.js: rooms -/

/-- DOM projection of the detail popup rendered after clicking a room row. -/
structure PopupContent where
  descriptionEl : Option String
  sizeEl : Option String
  amenityTexts : List String
  photoStyles : List String

/-- DOM projection of one `.roomstable tr` row.  `occupancyEl` is `none`
when the `td:nth-child(2) [aria-label]` element is absent; when present it
carries the `aria-label` attribute value (itself possibly null).  `popup`
is the `[data-testid="rp-content"]` found after clicking the name, if any. -/
structure RoomRow where
  nameEl : Option String
  occupancyEl : Option (Option String)
  popup : Option PopupContent

/-- An emitted room record. -/
structure Room where
  name : String
  maxOccupancy : Option Nat
  description : String
  images : List String
  size : String
  amenities : List String
deriving DecidableEq

/-- First match of `/(\d+)\s+adult/i`: leftmost digit run followed by at
least one whitespace character and then `adult` (case-insensitive); its
digit group parsed as the occupancy. -/
def adultOccL : List Char → Option Nat
  | [] => none
  | c :: cs =>
    if c.isDigit then
      let run := (c :: cs).takeWhile Char.isDigit
      let rest := (c :: cs).dropWhile Char.isDigit
      if !(rest.takeWhile Char.isWhitespace).isEmpty
          && ciStartsL (rest.dropWhile Char.isWhitespace) "adult".data then
        some (digitsVal run)
      else adultOccL cs
    else adultOccL cs

/-- The lazy group of `/url\("(.+?)"\)/`: shortest non-empty character run
followed by `")`. -/
def grabUrl : List Char → Option (List Char)
  | [] => none
  | c :: cs =>
    if ['"', ')'].isPrefixOf cs then some [c]
    else (grabUrl cs).map (fun l => c :: l)

/-- First match of `/url\("(.+?)"\)/` in a `background-image` style string
(regex backtracking over a failed `url("` occurrence approximated by
resuming the scan one character later, which no style string here hits). -/
def matchUrlParen : List Char → Option (List Char)
  | [] => none
  | c :: cs =>
    if ("url(\"".data).isPrefixOf (c :: cs) then
      match grabUrl ((c :: cs).drop 5) with
      | some l => some l
      | none => matchUrlParen cs
    else matchUrlParen cs

/-- `url.replace(/max300/, "max1024x768")`: first occurrence only. -/
def normalizeImg (url : String) : String := jsReplaceFirst url "max300" "max1024x768"

/-- The room-popup image pipeline: extract the `url("...")` group of each
photo div, drop the misses (`filter(Boolean)`), normalise the size token,
then de-duplicate (`new Set`). -/
def roomImages (p : PopupContent) : List String :=
  dedupStr
    (((p.photoStyles.filterMap fun st => (matchUrlParen st.data).map fun l => (⟨l⟩ : String))).map
      normalizeImg)

/-- extractors.js `extractRooms` loop.  Alongside the room list it counts
the detail-panel click interactions performed (`nameEl.click()` plus the
optional-chained close-banner click; `closeBanner` says whether the
`[aria-label="Close banner"]` element exists).  Rows missing the name or
occupancy element are skipped before any interaction (`continue`); a row
whose popup never appears contributes its opening click but no record and
no close click. -/
def extractRoomsGo (closeBanner : Bool) : List RoomRow → List Room × Nat
  | [] => ([], 0)
  | row :: rest =>
    match row.nameEl, row.occupancyEl with
    | some nameTxt, some occEl =>
      let occText := occEl.getD ""
      match row.popup with
      | none =>
        let r := extractRoomsGo closeBanner rest
        (r.1, r.2 + 1)
      | some p =>
        let room : Room :=
          { name := jsTrim nameTxt
            maxOccupancy := adultOccL occText.data
            description := (p.descriptionEl.map jsTrim).getD ""
            images := roomImages p
            size := (p.sizeEl.map jsTrim).getD ""
            amenities := dedupStr (p.amenityTexts.map jsTrim) }
        let r := extractRoomsGo closeBanner rest
        (room :: r.1, r.2 + 1 + (if closeBanner then 1 else 0))
    | _, _ => extractRoomsGo closeBanner rest

/-- extractors.js `extractRooms` over the `.roomstable tr` rows. -/
def extractRooms (closeBanner : Bool) (rows : List RoomRow) : List Room × Nat :=
  extractRoomsGo closeBanner rows

/-! ### scraper.js -/

/-- One intercepted network request. -/
structure NetRequest where
  resourceType : String
  url : String

/-- The abort branch of the request-interception handler. -/
def blockedRequest (q : NetRequest) : Bool :=
  q.resourceType == "font" || strIncludes q.url "analytics"
    || strIncludes q.url "tracking" || strIncludes q.url "telemetry"

/-- The low-resolution gallery URL marker tested by the interceptor. -/
def galleryMarker : String := "https://cf.bstatic.com/xdata/images/hotel/max300"

/-- The gallery URLs accumulated by the request handler over the request
stream: aborted requests return early; image requests whose URL contains
the marker are pushed with the size token of the first `max300` occurrence
upgraded. -/
def collectGallery (reqs : List NetRequest) : List String :=
  reqs.filterMap fun q =>
    if blockedRequest q then none
    else if q.resourceType == "image" && strIncludes q.url galleryMarker then
      some (jsReplaceFirst q.url "max300" "max1024x768")
    else none

/-- DOM projection of the loaded page, as read by the extractors.  The
selector cascades for name/address/description and the check-in/out text
scan are abstracted as their query results; `evalFails` models a rejected
`page.evaluate` call (the only way `extractHotelData` throws), which its
`catch` re-raises. -/
structure PageModel where
  hotelNameText : Option String
  addressText : Option String
  descriptionText : Option String
  ratingDivs : Option (List String)
  featureTexts : List String
  reviewBlocks : List RawReview
  poiBlocks : List PoiBlock
  checkinText : Option String
  checkoutText : Option String
  roomRows : List RoomRow
  closeBanner : Bool
  evalFails : Bool

/-- extractors.js `extractFeatures`: span texts trimmed then `new Set`. -/
def extractFeatures (texts : List String) : List String :=
  dedupStr (texts.map jsTrim)

/-- The final record assembled by the scrape (field layout of the
`hotelData` object in `extractHotelData`). -/
structure HotelData where
  hotelName : Option String
  address : Option String
  description : String
  rating : Rating
  galleryImages : List String
  features : List String
  rooms : List Room
  reviews : List Review
  checkin : Option String
  checkout : Option String
  nearbyPlaces : List Place

/-- extractors.js `extractHotelData`: the parallel fan-out of the read-only
extractors followed by the sequential room extraction; `galleryImages`
keeps its initial `[]` here (scraper.js overwrites it).  A rejected
evaluation propagates (`catch` logs and rethrows). -/
def extractHotelData (p : PageModel) : Except String HotelData :=
  if p.evalFails then .error "Protocol error"
  else
    .ok
      { hotelName := p.hotelNameText
        address := p.addressText
        description := (p.descriptionText.map jsTrim).getD ""
        rating := extractRating p.ratingDivs
        galleryImages := []
        features := extractFeatures p.featureTexts
        rooms := (extractRooms p.closeBanner p.roomRows).1
        reviews := extractReviews p.reviewBlocks
        checkin := p.checkinText
        checkout := p.checkoutText
        nearbyPlaces := extractNearbyPlaces p.poiBlocks }

/-- The fatal error taxonomy of `scrapeHotelData` (each constructor is one
`throw` site). -/
inductive ScrapeError where
  | noResponse
  | accessDenied
  | notFound
  | wrongPage (finalUrl : String)
  | extraction (msg : String)
deriving DecidableEq

/-- The `error.message` of each throw site. -/
def errMessage : ScrapeError → String
  | .noResponse => "No response from server"
  | .accessDenied => "Access denied (403) - Bot detection likely triggered"
  | .notFound => "Page not found (404)"
  | .wrongPage u => "Final URL is not a hotel page: " ++ u
  | .extraction m => m

/-- scraper.js lines 589-616: the navigation-response check.  No response
object throws; then `if (status !== 200)` throws only for 403 and 404 --
any other status falls through and the scrape continues. -/
def navCheck (response : Option Nat) : Except ScrapeError Nat :=
  match response with
  | none => .error .noResponse
  | some status =>
    if status ≠ 200 then
      if status = 403 then .error .accessDenied
      else if status = 404 then .error .notFound
      else .ok status
    else .ok status

/-- Environment of one `scrapeHotelData` run: whether `puppeteer.launch`
succeeds, the request stream seen by the interceptor, the `page.goto`
result, the page URL right after navigation and after the soft-block
grace/captcha wait, and the DOM projection. -/
structure ScrapeEnv where
  launchOk : Bool
  requests : List NetRequest
  response : Option Nat
  urlAfterNav : String
  finalUrl : String
  page : PageModel

/-- The `try` block of `scrapeHotelData` after a successful launch.  The
captcha/redirect branch (lines 618-637) only logs and waits -- the URL it
leaves behind is `env.finalUrl`, which must still look like a hotel page;
then extraction runs and the observed gallery images are de-duplicated
into the record (line 660). -/
def scrapeBody (env : ScrapeEnv) : Except ScrapeError HotelData :=
  match navCheck env.response with
  | .error e => .error e
  | .ok _ =>
    if !(strIncludes env.finalUrl "booking.com/hotel") then
      .error (.wrongPage env.finalUrl)
    else
      match extractHotelData env.page with
      | .error m => .error (.extraction m)
      | .ok d => .ok { d with galleryImages := dedupStr (collectGallery env.requests) }

/-- Observable outcome of `scrapeHotelData`, with the browser-resource
bookkeeping (`browserLaunched`: the `browser` variable became non-null;
`browserClosed`: `browser.close()` ran). -/
structure ScrapeResult where
  success : Bool
  data : Option HotelData
  error : Option String
  browserLaunched : Bool
  browserClosed : Bool

/-- `try`/`catch` of `scrapeHotelData` before the `finally`: a failed
launch is caught with `browser` still null; any throw from the body is
caught and surfaced as `{success: false, error}`. -/
def scrapeTryCatch (env : ScrapeEnv) : ScrapeResult :=
  if !env.launchOk then
    { success := false, data := none,
      error := some "Failed to launch the browser process"
      browserLaunched := false, browserClosed := false }
  else
    match scrapeBody env with
    | .ok d =>
      { success := true, data := some d, error := none
        browserLaunched := true, browserClosed := false }
    | .error e =>
      { success := false, data := none, error := some (errMessage e)
        browserLaunched := true, browserClosed := false }

/-- The `finally` block: `if (browser) await browser.close()` -- runs on
every exit path of the `try`/`catch`. -/
def finallyClose (r : ScrapeResult) : ScrapeResult :=
  if r.browserLaunched then { r with browserClosed := true } else r

/-- scraper.js `scrapeHotelData`. -/
def scrapeHotelData (env : ScrapeEnv) : ScrapeResult :=
  finallyClose (scrapeTryCatch env)

/-! ### server.js -/

/-- Observable outcome of one `POST /scrape` request. -/
structure HandlerResult where
  status : Nat
  errorField : Option String
  exampleField : Option String
  scrapeInvoked : Bool
  browserLaunched : Bool

/-- Does the request body carry a url containing the hotel-path marker? -/
def urlHasMarker : Option String → Bool
  | none => false
  | some s => strIncludes s "booking.com/hotel"

/-- server.js `app.post("/scrape")`: validate, else run the scraper and
translate its outcome to 200 or 500. -/
def handleScrape (url : Option String) (env : ScrapeEnv) : HandlerResult :=
  if !(isValidBookingUrl url) then
    { status := 400
      errorField := some "Invalid URL. Please provide a valid Booking.com hotel profile URL."
      exampleField := some "https://www.booking.com/hotel/xx/hotel-name.html"
      scrapeInvoked := false
      browserLaunched := false }
  else
    let r := scrapeHotelData env
    if r.success then
      { status := 200, errorField := none, exampleField := none
        scrapeInvoked := true, browserLaunched := r.browserLaunched }
    else
      { status := 500, errorField := some "Scraping failed", exampleField := none
        scrapeInvoked := true, browserLaunched := r.browserLaunched }

/-- A benign page used by concrete runs. -/
def pageOk : PageModel :=
  { hotelNameText := some "Riad Verus"
    addressText := some "12 Derb, Fes 30000, Morocco"
    descriptionText := some "A riad."
    ratingDivs := some ["8,7", "1 234 reviews"]
    featureTexts := ["Free WiFi"]
    reviewBlocks := []
    poiBlocks := []
    checkinText := some "From 14:00 to 22:00"
    checkoutText := some "Until 12:00"
    roomRows := []
    closeBanner := true
    evalFails := false }

/-- A benign environment: launch ok, HTTP 200, hotel-page final URL. -/
def envOk : ScrapeEnv :=
  { launchOk := true
    requests := []
    response := some 200
    urlAfterNav := "https://www.booking.com/hotel/ma/riad-verus.en-gb.html"
    finalUrl := "https://www.booking.com/hotel/ma/riad-verus.en-gb.html"
    page := pageOk }

/-- `envOk` with an HTTP 500 navigation response. -/
def env500 : ScrapeEnv := { envOk with response := some 500 }

/-- `envOk` with `page.goto` resolving to no response object. -/
def envNoResp : ScrapeEnv := { envOk with response := none }

/-- `envOk` with an HTTP 403 navigation response. -/
def env403 : ScrapeEnv := { envOk with response := some 403 }

/-- `envOk` with an HTTP 404 navigation response. -/
def env404 : ScrapeEnv := { envOk with response := some 404 }

/-! ## Library lemmas about the string primitives -/

theorem includesL_iff (pat : List Char) :
    ∀ s : List Char, includesL pat s = true ↔ pat <:+: s := by
  intro s
  induction s with
  | nil =>
    simp [includesL, List.isPrefixOf_iff_prefix]
  | cons c cs ih =>
    simp [includesL, List.isPrefixOf_iff_prefix, ih, List.infix_cons_iff]

theorem includesL_singleton (c : Char) :
    ∀ s : List Char, includesL [c] s = true ↔ c ∈ s := by
  intro s
  rw [includesL_iff]
  constructor
  · rintro ⟨s1, t1, rfl⟩
    simp
  · intro h
    rcases List.append_of_mem h with ⟨s1, t1, rfl⟩
    exact ⟨s1, t1, by simp⟩

theorem replaceFirstL_infix (pat rep : List Char) :
    ∀ s : List Char, pat <:+: s → rep <:+: replaceFirstL pat rep s := by
  intro s
  induction s with
  | nil =>
    intro h
    have hp : pat = [] := List.infix_nil.mp h
    subst hp
    simp [replaceFirstL]
  | cons c cs ih =>
    intro h
    by_cases hp : pat.isPrefixOf (c :: cs) = true
    · simp only [replaceFirstL, hp, if_pos]
      exact (List.prefix_append rep _).isInfix
    · have h2 : pat <:+: cs := by
        rcases List.infix_cons_iff.mp h with h1 | h1
        · exact absurd (List.isPrefixOf_iff_prefix.mpr h1) hp
        · exact h1
      simp only [replaceFirstL, hp, if_neg, Bool.false_eq_true, not_false_iff]
      exact List.infix_cons_iff.mpr (Or.inr (ih h2))

theorem replaceFirstL_of_not_contained (pat rep : List Char) :
    ∀ s : List Char, includesL pat s = false → replaceFirstL pat rep s = s := by
  intro s
  induction s with
  | nil =>
    intro h
    simp only [includesL] at h
    simp [replaceFirstL, h]
  | cons c cs ih =>
    intro h
    simp only [includesL, Bool.or_eq_false_iff] at h
    simp [replaceFirstL, h.1, ih h.2]

theorem replaceFirst_single_char (c d : Char) (hcd : c ≠ d) :
    ∀ s : List Char, s.count c ≤ 1 → c ∉ replaceFirstL [c] [d] s := by
  intro s
  induction s with
  | nil =>
    intro _
    simp [replaceFirstL, List.isPrefixOf]
  | cons a as ih =>
    intro hcount
    by_cases ha : a = c
    · subst ha
      have hpre : ([a].isPrefixOf (a :: as)) = true := by
        simp [List.isPrefixOf]
      simp only [replaceFirstL, hpre, if_pos]
      have h0 : as.count a = 0 := by
        have := List.count_cons_self a as ▸ hcount
        omega
      have hnot : a ∉ as := by
        rw [← List.count_pos_iff]
        omega
      simp [List.drop, List.mem_cons]
      exact ⟨fun he => hcd he, hnot⟩
    · have hpre : ([c].isPrefixOf (a :: as)) = false := by
        simp [List.isPrefixOf]
        exact fun he => ha he.symm
      simp only [replaceFirstL, hpre, Bool.false_eq_true, if_neg, not_false_iff]
      have hcount' : as.count c ≤ 1 := by
        rw [List.count_cons_of_ne (fun he => ha he.symm)] at hcount
        exact hcount
      intro hmem
      rcases List.mem_cons.mp hmem with he | hmem'
      · exact ha he.symm
      · exact ih hcount' hmem'

/-! ## Library lemmas about keep-first de-duplication -/

theorem dedupByKey_sublist {α β : Type} [DecidableEq β] (key : α → β) :
    ∀ (seen : List β) (xs : List α), List.Sublist (dedupByKey key seen xs) xs := by
  intro seen xs
  induction xs generalizing seen with
  | nil => simp [dedupByKey]
  | cons x xs ih =>
    by_cases h : key x ∈ seen
    · simp only [dedupByKey, h, if_pos]
      exact (ih seen).cons x
    · simp only [dedupByKey, h, if_neg, not_false_iff]
      exact (ih (key x :: seen)).cons₂ x

theorem dedupByKey_key_not_seen {α β : Type} [DecidableEq β] (key : α → β) :
    ∀ (seen : List β) (xs : List α) (y : α),
      y ∈ dedupByKey key seen xs → key y ∉ seen := by
  intro seen xs
  induction xs generalizing seen with
  | nil => intro y h; simp [dedupByKey] at h
  | cons x xs ih =>
    intro y h
    by_cases hx : key x ∈ seen
    · simp only [dedupByKey, hx, if_pos] at h
      exact ih seen y h
    · simp only [dedupByKey, hx, if_neg, not_false_iff, List.mem_cons] at h
      rcases h with rfl | h
      · exact hx
      · intro hy
        exact ih (key x :: seen) y h (List.mem_cons_of_mem _ hy)

theorem dedupByKey_keys_nodup {α β : Type} [DecidableEq β] (key : α → β) :
    ∀ (seen : List β) (xs : List α), ((dedupByKey key seen xs).map key).Nodup := by
  intro seen xs
  induction xs generalizing seen with
  | nil => simp [dedupByKey]
  | cons x xs ih =>
    by_cases hx : key x ∈ seen
    · simp only [dedupByKey, hx, if_pos]
      exact ih seen
    · simp only [dedupByKey, hx, if_neg, not_false_iff, List.map_cons, List.nodup_cons]
      refine ⟨?_, ih _⟩
      intro hmem
      rcases List.mem_map.mp hmem with ⟨y, hy, hky⟩
      exact dedupByKey_key_not_seen key _ _ y hy (List.mem_cons.mpr (Or.inl hky))

theorem dedupByKey_first_occ {α β : Type} [DecidableEq β] (key : α → β) :
    ∀ (seen : List β) (xs : List α) (y : α), y ∈ dedupByKey key seen xs →
      ∃ l₁ l₂, xs = l₁ ++ y :: l₂ ∧ ∀ z ∈ l₁, key z ≠ key y := by
  intro seen xs
  induction xs generalizing seen with
  | nil => intro y h; simp [dedupByKey] at h
  | cons x xs ih =>
    intro y h
    by_cases hx : key x ∈ seen
    · have hns := dedupByKey_key_not_seen key seen (x :: xs) y h
      simp only [dedupByKey, hx, if_pos] at h
      rcases ih seen y h with ⟨l₁, l₂, rfl, hl⟩
      refine ⟨x :: l₁, l₂, rfl, ?_⟩
      intro z hz
      rcases List.mem_cons.mp hz with rfl | hz'
      · exact fun he => hns (he ▸ hx)
      · exact hl z hz'
    · simp only [dedupByKey, hx, if_neg, not_false_iff, List.mem_cons] at h
      rcases h with rfl | h
      · exact ⟨[], xs, rfl, by simp⟩
      · have hns := dedupByKey_key_not_seen key (key x :: seen) xs y h
        rcases ih (key x :: seen) y h with ⟨l₁, l₂, rfl, hl⟩
        refine ⟨x :: l₁, l₂, rfl, ?_⟩
        intro z hz
        rcases List.mem_cons.mp hz with rfl | hz'
        · exact fun he => hns (List.mem_cons.mpr (Or.inl he.symm))
        · exact hl z hz'

theorem dedupByKey_complete {α β : Type} [DecidableEq β] (key : α → β) :
    ∀ (seen : List β) (xs : List α) (x : α), x ∈ xs →
      key x ∈ seen ∨ key x ∈ (dedupByKey key seen xs).map key := by
  intro seen xs
  induction xs generalizing seen with
  | nil => intro x h; simp at h
  | cons a as ih =>
    intro x h
    by_cases ha : key a ∈ seen
    · simp only [dedupByKey, ha, if_pos]
      rcases List.mem_cons.mp h with rfl | h'
      · exact Or.inl ha
      · exact ih seen x h'
    · simp only [dedupByKey, ha, if_neg, not_false_iff, List.map_cons]
      rcases List.mem_cons.mp h with rfl | h'
      · exact Or.inr (List.mem_cons.mpr (Or.inl rfl))
      · rcases ih (key a :: seen) x h' with hin | hin
        · rcases List.mem_cons.mp hin with he | he
          · exact Or.inr (List.mem_cons.mpr (Or.inl he))
          · exact Or.inl he
        · exact Or.inr (List.mem_cons.mpr (Or.inr hin))

/-! ## Library lemmas about JS-object assignment order -/

theorem lookupKey_objInsert (k v : String) :
    ∀ o : List (String × String), lookupKey k (objInsert o k v) = some v := by
  intro o
  induction o with
  | nil => simp [objInsert, lookupKey]
  | cons p ps ih =>
    by_cases hp : p.1 = k
    · have hex : ∃ q ∈ p :: ps, q.1 = k := ⟨p, List.mem_cons_self _ _, hp⟩
      simp only [objInsert, hex, if_pos, List.map_cons, hp]
      simp [lookupKey]
    · by_cases hq : ∃ q ∈ ps, q.1 = k
      · have hex : ∃ q ∈ p :: ps, q.1 = k := by
          obtain ⟨q, hq1, hq2⟩ := hq
          exact ⟨q, List.mem_cons_of_mem _ hq1, hq2⟩
        simp only [objInsert, hex, if_pos, List.map_cons, hp, if_neg, not_false_iff]
        simp only [lookupKey, hp, if_neg, not_false_iff]
        have h2 := ih
        simp only [objInsert, hq, if_pos] at h2
        exact h2
      · have hnex : ¬ ∃ q ∈ p :: ps, q.1 = k := by
          rintro ⟨q, hqmem, hqk⟩
          rcases List.mem_cons.mp hqmem with rfl | hmem
          · exact hp hqk
          · exact hq ⟨q, hmem, hqk⟩
        simp only [objInsert, hnex, if_neg, not_false_iff, List.cons_append]
        simp only [lookupKey, hp, if_neg, not_false_iff]
        have h2 := ih
        simp only [objInsert, hq, if_neg, not_false_iff] at h2
        exact h2

theorem lookupKey_map_assign (k k' v : String) (h : k ≠ k') :
    ∀ ps : List (String × String),
      lookupKey k (ps.map fun p => if p.1 = k' then (k', v) else p) =
        lookupKey k ps := by
  intro ps
  induction ps with
  | nil => simp [lookupKey]
  | cons p ps ih =>
    simp only [List.map_cons]
    by_cases hp : p.1 = k'
    · rw [if_pos hp]
      have h2 : ¬ (k' = k) := fun he => h he.symm
      have h3 : ¬ (p.1 = k) := by rw [hp]; exact h2
      simp [lookupKey, h2, h3, ih]
    · rw [if_neg hp]
      simp [lookupKey, ih]

theorem lookupKey_append_singleton (k k' v : String) (h : k ≠ k') :
    ∀ o : List (String × String),
      lookupKey k (o ++ [(k', v)]) = lookupKey k o := by
  intro o
  induction o with
  | nil =>
    have h2 : ¬ (k' = k) := fun he => h he.symm
    simp [lookupKey, h2]
  | cons p ps ih =>
    by_cases hp : p.1 = k
    · simp [lookupKey, hp]
    · simp [lookupKey, hp, ih]

theorem lookupKey_objInsert_ne (k k' v : String) (h : k ≠ k') :
    ∀ o : List (String × String),
      lookupKey k (objInsert o k' v) = lookupKey k o := by
  intro o
  by_cases ha : ∃ q ∈ o, q.1 = k'
  · simp only [objInsert, ha, if_pos]
    exact lookupKey_map_assign k k' v h o
  · simp only [objInsert, ha, if_neg, not_false_iff]
    exact lookupKey_append_singleton k k' v h o

theorem lookupKey_foldl_no_collision (k : String) :
    ∀ (det : List (String × String)) (o : List (String × String)),
      (∀ kv ∈ det, kv.1 ≠ k) →
      lookupKey k (det.foldl (fun o kv => objInsert o kv.1 kv.2) o) =
        lookupKey k o := by
  intro det
  induction det with
  | nil => intro o _; rfl
  | cons kv det ih =>
    intro o hall
    simp only [List.foldl_cons]
    rw [ih (objInsert o kv.1 kv.2) (fun q hq => hall q (List.mem_cons_of_mem _ hq))]
    exact lookupKey_objInsert_ne k kv.1 kv.2
      (fun he => hall kv (List.mem_cons_self _ _) he.symm) o

/-! ## Claim theorems -/

/-- C1: a POST /scrape body whose url does not contain the hotel-path
marker (missing and empty urls included) is answered with HTTP 400, an
error message and an example URL, and `scrapeHotelData` (hence browser
launch and navigation) never runs; any url containing the marker reaches
the scraper. -/
theorem scrape_endpoint_url_validation (url : Option String) (env : ScrapeEnv) :
    (urlHasMarker url = false →
      (handleScrape url env).status = 400 ∧
      (handleScrape url env).errorField.isSome = true ∧
      (handleScrape url env).exampleField.isSome = true ∧
      (handleScrape url env).scrapeInvoked = false ∧
      (handleScrape url env).browserLaunched = false) ∧
    (urlHasMarker url = true → (handleScrape url env).scrapeInvoked = true) := by
  constructor
  · intro h
    have hv : isValidBookingUrl url = false := by
      cases url with
      | none => rfl
      | some s =>
        simp only [urlHasMarker] at h
        simp [isValidBookingUrl, h]
    simp [handleScrape, hv]
  · intro h
    cases url with
    | none => simp [urlHasMarker] at h
    | some s =>
      simp only [urlHasMarker] at h
      have hne : (s == "") = false := by
        rcases eq_or_ne s "" with rfl | hne
        · have hcon : strIncludes "" "booking.com/hotel" = false := by decide
          rw [hcon] at h
          cases h
        · simp [hne]
      have hv : isValidBookingUrl (some s) = true := by
        simp [isValidBookingUrl, hne, h]
      by_cases hs : (scrapeHotelData env).success = true
      · simp [handleScrape, hv, hs]
      · simp [handleScrape, hv, hs]

/-- C1 witness: concrete rejected and accepted urls. -/
theorem scrape_endpoint_url_validation_witness :
    (handleScrape (some "https://example.com") envOk).status = 400 ∧
    (handleScrape (some "https://www.booking.com/hotel/ma/riad.html") envOk).scrapeInvoked
      = true :=
  ⟨((scrape_endpoint_url_validation (some "https://example.com") envOk).1
      (by decide)).1,
    (scrape_endpoint_url_validation
      (some "https://www.booking.com/hotel/ma/riad.html") envOk).2 (by decide)⟩

/-- C2: on every exit path of `scrapeHotelData` (success, navigation
failure, wrong-page failure, extraction failure, failed launch) the
browser is closed exactly when it was launched -- a launched browser is
never leaked. -/
theorem browser_always_released (env : ScrapeEnv) :
    (scrapeHotelData env).browserClosed = (scrapeHotelData env).browserLaunched := by
  by_cases hl : env.launchOk = true
  · cases hb : scrapeBody env <;>
      simp [scrapeHotelData, finallyClose, scrapeTryCatch, hl, hb]
  · simp only [Bool.not_eq_true] at hl
    simp [scrapeHotelData, finallyClose, scrapeTryCatch, hl]

/-- C8: a page with zero room rows yields the empty room list (not a null
substitute) with zero detail-panel interactions, and a row missing its
name element or its occupancy element is skipped without error and without
opening its panel. -/
theorem rooms_empty_and_skip_no_interaction :
    (∀ cb : Bool, extractRooms cb [] = ([], 0)) ∧
    (∀ (cb : Bool) (row : RoomRow) (rest : List RoomRow),
      row.nameEl = none ∨ row.occupancyEl = none →
      extractRooms cb (row :: rest) = extractRooms cb rest) := by
  constructor
  · intro cb; rfl
  · intro cb row rest h
    rcases row with ⟨n, o, p⟩
    rcases h with h | h
    · simp only at h
      subst h
      cases o <;> rfl
    · simp only at h
      subst h
      cases n <;> rfl

/-- C8 witness: a concrete nameless row is skipped with no interaction. -/
theorem rooms_empty_and_skip_no_interaction_witness :
    extractRooms true [] = ([], 0) ∧
    extractRooms true [⟨none, some (some "2 adults"), none⟩] = extractRooms true [] :=
  ⟨rooms_empty_and_skip_no_interaction.1 true,
    rooms_empty_and_skip_no_interaction.2 true
      ⟨none, some (some "2 adults"), none⟩ [] (Or.inl rfl)⟩

/-- C9: `isValidBookingUrl` accepts exactly the non-empty urls containing
the substring `booking.com/hotel` anywhere; in particular a url on a
foreign host embedding the marker in its query string passes validation
and reaches the scraper. -/
theorem isValidBookingUrl_iff_marker :
    (∀ u : Option String, isValidBookingUrl u = true ↔
      ∃ s, u = some s ∧ s ≠ "" ∧ strIncludes s "booking.com/hotel" = true) ∧
    isValidBookingUrl (some "https://evil.example/path?q=booking.com/hotel") = true ∧
    (handleScrape (some "https://evil.example/path?q=booking.com/hotel") envOk).scrapeInvoked
      = true := by
  refine ⟨?_, by decide, by decide⟩
  intro u
  cases u with
  | none => simp [isValidBookingUrl]
  | some s => simp [isValidBookingUrl, Bool.and_eq_true]

/-- C10: `addStep` appends exactly one entry, leaving every earlier entry
in place and in order; the entry's `step` and `timestamp` fields hold the
label and clock value unless the spread `details` payload carries a key of
the same name, which then overwrites them. -/
theorem addStep_append_only (d : Diagnostics) (ts st : String)
    (det : List (String × String)) :
    (addStep d ts st det).steps = d.steps ++ [mkStepEntry ts st det] ∧
    (addStep d ts st det).steps.length = d.steps.length + 1 ∧
    (∀ i : Nat, i < d.steps.length →
      (addStep d ts st det).steps.getD i [] = d.steps.getD i []) ∧
    lookupKey "step" (mkStepEntry ts st []) = some st ∧
    lookupKey "timestamp" (mkStepEntry ts st []) = some ts ∧
    ((∀ kv ∈ det, kv.1 ≠ "step") →
      lookupKey "step" (mkStepEntry ts st det) = some st) ∧
    (∀ v, lookupKey "step" (mkStepEntry ts st (det ++ [("step", v)])) = some v) ∧
    (∀ v, lookupKey "timestamp" (mkStepEntry ts st (det ++ [("timestamp", v)]))
      = some v) := by
  refine ⟨rfl, by simp [addStep], ?_, rfl, rfl, ?_, ?_, ?_⟩
  · intro i hi
    simp [addStep, List.getElem?_append, hi]
  · intro hall
    rw [mkStepEntry, lookupKey_foldl_no_collision "step" det _ hall]
    rfl
  · intro v
    rw [mkStepEntry, List.foldl_append]
    exact lookupKey_objInsert "step" v _
  · intro v
    rw [mkStepEntry, List.foldl_append]
    exact lookupKey_objInsert "timestamp" v _

/-- C10 witness: a collision-free details payload keeps the label and a
payload with a `step` key overwrites it. -/
theorem addStep_append_only_witness :
    lookupKey "step" (mkStepEntry "2024-01-01T00:00:00.000Z" "Navigating to URL"
      [("url", "https://x")]) = some "Navigating to URL" ∧
    lookupKey "step" (mkStepEntry "2024-01-01T00:00:00.000Z" "Navigating to URL"
      ([] ++ [("step", "hijacked")])) = some "hijacked" :=
  ⟨(addStep_append_only
      { sessionId := "1", steps := [], screenshots := [] }
      "2024-01-01T00:00:00.000Z" "Navigating to URL"
      [("url", "https://x")]).2.2.2.2.2.1 (by decide),
    (addStep_append_only
      { sessionId := "1", steps := [], screenshots := [] }
      "2024-01-01T00:00:00.000Z" "Navigating to URL" []).2.2.2.2.2.2.1 "hijacked"⟩

/-- C9 witness: the characterisation applied to a concrete foreign-host
url embedding the marker. -/
theorem isValidBookingUrl_iff_marker_witness :
    isValidBookingUrl (some "https://attacker.example/?u=booking.com/hotel") = true :=
  (isValidBookingUrl_iff_marker.1
      (some "https://attacker.example/?u=booking.com/hotel")).mpr
    ⟨"https://attacker.example/?u=booking.com/hotel", rfl, by decide, by decide⟩

/-- C3 counterexample: an HTTP 500 navigation response does not abort the
scrape -- with everything else benign the scrape succeeds, refuting
"any other non-200 status also aborts the scrape as a navigation error". -/
theorem nav_status_500_not_fatal_cex :
    env500.response = some 500 ∧ (scrapeHotelData env500).success = true :=
  ⟨rfl, by decide⟩

/-- C3 amended: navigation aborts fatally exactly for an absent response
object (navigation error), HTTP 403 (access denied, message mentioning bot
detection) and HTTP 404 (not found); every other status -- 200 or not --
passes the check and the scrape continues. -/
theorem nav_fatal_statuses (env : ScrapeEnv) (r : Option Nat) :
    (navCheck r = .error .noResponse ↔ r = none) ∧
    (navCheck r = .error .accessDenied ↔ r = some 403) ∧
    (navCheck r = .error .notFound ↔ r = some 404) ∧
    (∀ s : Nat, s ≠ 403 → s ≠ 404 → navCheck (some s) = .ok s) ∧
    strIncludes (errMessage .accessDenied) "Bot detection" = true ∧
    strIncludes (errMessage .notFound) "not found" = true ∧
    (env.launchOk = true → env.response = none →
      (scrapeHotelData env).success = false ∧
      (scrapeHotelData env).error = some "No response from server") ∧
    (env.launchOk = true → env.response = some 403 →
      (scrapeHotelData env).success = false ∧
      (scrapeHotelData env).error =
        some "Access denied (403) - Bot detection likely triggered") ∧
    (env.launchOk = true → env.response = some 404 →
      (scrapeHotelData env).success = false ∧
      (scrapeHotelData env).error = some "Page not found (404)") := by
  have hnc : ∀ s : Nat, navCheck (some s) =
      if s = 403 then .error .accessDenied
      else if s = 404 then .error .notFound
      else .ok s := by
    intro s
    by_cases h3 : s = 403
    · subst h3; simp [navCheck]
    · by_cases h4 : s = 404
      · subst h4; simp [navCheck]
      · by_cases h2 : s = 200
        · subst h2; simp [navCheck]
        · simp [navCheck, h2, h3, h4]
  refine ⟨?_, ?_, ?_, ?_, by decide, by decide, ?_, ?_, ?_⟩
  · cases r with
    | none => simp [navCheck]
    | some s =>
      rw [hnc]
      by_cases h3 : s = 403
      · simp [h3]
      · by_cases h4 : s = 404 <;> simp [h3, h4]
  · cases r with
    | none => simp [navCheck]
    | some s =>
      rw [hnc]
      by_cases h3 : s = 403
      · simp [h3]
      · by_cases h4 : s = 404 <;> simp [h3, h4]
  · cases r with
    | none => simp [navCheck]
    | some s =>
      rw [hnc]
      by_cases h3 : s = 403
      · simp [h3]
      · by_cases h4 : s = 404 <;> simp [h3, h4]
  · intro s h3 h4
    rw [hnc]
    simp [h3, h4]
  · intro hl hr
    simp [scrapeHotelData, finallyClose, scrapeTryCatch, scrapeBody, navCheck, hr, hl,
      errMessage]
  · intro hl hr
    simp [scrapeHotelData, finallyClose, scrapeTryCatch, scrapeBody, navCheck, hr, hl,
      errMessage]
  · intro hl hr
    simp [scrapeHotelData, finallyClose, scrapeTryCatch, scrapeBody, navCheck, hr, hl,
      errMessage]

/-- C3 witness: concrete environments exercising each hypothesis. -/
theorem nav_fatal_statuses_witness :
    navCheck (some 500) = .ok 500 ∧
    (scrapeHotelData envNoResp).error = some "No response from server" ∧
    (scrapeHotelData env403).error =
      some "Access denied (403) - Bot detection likely triggered" ∧
    (scrapeHotelData env404).error = some "Page not found (404)" :=
  ⟨(nav_fatal_statuses envOk (some 500)).2.2.2.1 500 (by decide) (by decide),
    ((nav_fatal_statuses envNoResp (some 500)).2.2.2.2.2.2.1 rfl rfl).2,
    ((nav_fatal_statuses env403 (some 500)).2.2.2.2.2.2.2.1 rfl rfl).2,
    ((nav_fatal_statuses env404 (some 500)).2.2.2.2.2.2.2.2 rfl rfl).2⟩

/-- C4: each de-duplicated collection (features and gallery images keyed by
the element itself, reviews keyed by text, nearby places keyed by
place-plus-distance) has pairwise-distinct keys, is a sublist of its source
(so relative order matches the source traversal), and each survivor is the
first occurrence of its key; two review blocks with identical text yield
exactly one review entry. -/
theorem dedup_collections_nodup_first_order :
    (∀ xs : List String, (dedupStr xs).Nodup ∧ List.Sublist (dedupStr xs) xs ∧
      (∀ x ∈ xs, x ∈ dedupStr xs) ∧
      (∀ y ∈ dedupStr xs, ∃ l₁ l₂, xs = l₁ ++ y :: l₂ ∧ ∀ z ∈ l₁, z ≠ y)) ∧
    (∀ rs : List RawReview,
      ((extractReviews rs).map (fun r => r.text)).Nodup ∧
      List.Sublist (extractReviews rs) (rs.map mkReview) ∧
      (∀ y ∈ extractReviews rs, ∃ l₁ l₂, rs.map mkReview = l₁ ++ y :: l₂ ∧
        ∀ z ∈ l₁, z.text ≠ y.text)) ∧
    (∀ bs : List PoiBlock,
      ((extractNearbyPlaces bs).map placeKey).Nodup ∧
      List.Sublist (extractNearbyPlaces bs) (allPlaces bs) ∧
      (∀ y ∈ extractNearbyPlaces bs, ∃ l₁ l₂, allPlaces bs = l₁ ++ y :: l₂ ∧
        ∀ z ∈ l₁, placeKey z ≠ placeKey y)) ∧
    extractReviews [⟨some "A", some "It", some "Nice stay"⟩,
        ⟨some "B", some "Fr", some "Nice stay"⟩] =
      [{ name := "A", country := "It", text := "Nice stay" }] := by
  refine ⟨?_, ?_, ?_, by decide⟩
  · intro xs
    refine ⟨?_, dedupByKey_sublist id [] xs, ?_, ?_⟩
    · have h := dedupByKey_keys_nodup id [] xs
      simpa using h
    · intro x hx
      rcases dedupByKey_complete id [] xs x hx with h | h
      · simp at h
      · simpa using h
    · intro y hy
      have h := dedupByKey_first_occ id [] xs y hy
      simpa using h
  · intro rs
    exact ⟨dedupByKey_keys_nodup _ [] _, dedupByKey_sublist _ [] _,
      fun y hy => dedupByKey_first_occ _ [] _ y hy⟩
  · intro bs
    exact ⟨dedupByKey_keys_nodup _ [] _, dedupByKey_sublist _ [] _,
      fun y hy => dedupByKey_first_occ _ [] _ y hy⟩

/-- C4 witness: the concrete properties at a small duplicated input. -/
theorem dedup_collections_nodup_first_order_witness :
    "b" ∈ dedupStr ["a", "b", "a", "b"] ∧
    (∃ l₁ l₂, (["a", "b", "a", "b"] : List String) = l₁ ++ "b" :: l₂ ∧
      ∀ z ∈ l₁, z ≠ "b") :=
  ⟨(dedup_collections_nodup_first_order.1 ["a", "b", "a", "b"]).2.2.1 "b" (by decide),
    (dedup_collections_nodup_first_order.1 ["a", "b", "a", "b"]).2.2.2 "b"
      ((dedup_collections_nodup_first_order.1 ["a", "b", "a", "b"]).2.2.1 "b"
        (by decide))⟩

/-- C5 counterexample: a captured gallery request whose URL contains the
low-resolution token twice keeps the second occurrence (only the first is
replaced), so a stored gallery URL can still contain `max300`. -/
theorem gallery_url_retains_max300_cex :
    collectGallery [⟨"image",
        "https://cf.bstatic.com/xdata/images/hotel/max300/room-max300.jpg"⟩] =
      ["https://cf.bstatic.com/xdata/images/hotel/max1024x768/room-max300.jpg"] ∧
    strIncludes "https://cf.bstatic.com/xdata/images/hotel/max1024x768/room-max300.jpg"
      "max300" = true :=
  ⟨by decide, by decide⟩

/-- C5 amended: every stored gallery URL contains the high-resolution
token (its URL matched the low-resolution marker, whose first `max300`
occurrence gets replaced); room-image normalisation likewise upgrades the
first `max300` occurrence and leaves URLs without the token unchanged --
so a URL with further `max300` occurrences retains them. -/
theorem image_urls_high_res_token :
    (∀ reqs : List NetRequest, ∀ u ∈ collectGallery reqs,
      strIncludes u "max1024x768" = true) ∧
    (∀ url : String, strIncludes url "max300" = true →
      strIncludes (normalizeImg url) "max1024x768" = true) ∧
    (∀ url : String, strIncludes url "max300" = false → normalizeImg url = url) ∧
    (∀ p : PopupContent, ∀ u ∈ roomImages p, ∃ raw : String, u = normalizeImg raw) := by
  have key2 : ∀ url : String, strIncludes url "max300" = true →
      strIncludes (normalizeImg url) "max1024x768" = true := by
    intro url h
    have hinf : "max300".data <:+: url.data := (includesL_iff _ _).mp h
    have h2 := replaceFirstL_infix "max300".data "max1024x768".data url.data hinf
    exact (includesL_iff _ _).mpr h2
  refine ⟨?_, key2, ?_, ?_⟩
  · intro reqs u hu
    simp only [collectGallery, List.mem_filterMap] at hu
    obtain ⟨q, _, hq⟩ := hu
    by_cases hb : blockedRequest q = true
    · simp [hb] at hq
    · simp only [hb, Bool.false_eq_true, if_neg, not_false_iff] at hq
      by_cases hc : (q.resourceType == "image" && strIncludes q.url galleryMarker) = true
      · rw [if_pos hc] at hq
        obtain rfl := Option.some.inj hq
        have hmarker : strIncludes q.url galleryMarker = true := by
          simp only [Bool.and_eq_true] at hc
          exact hc.2
        have h1 : galleryMarker.data <:+: q.url.data := (includesL_iff _ _).mp hmarker
        have h0 : "max300".data <:+: galleryMarker.data := by decide
        exact key2 q.url ((includesL_iff _ _).mpr (h0.trans h1))
      · simp [hc] at hq
  · intro url h
    show (⟨replaceFirstL "max300".data "max1024x768".data url.data⟩ : String) = url
    rw [replaceFirstL_of_not_contained _ _ _ h]
  · intro p u hu
    simp only [roomImages, dedupStr] at hu
    have hu2 := List.Sublist.mem hu (dedupByKey_sublist id [] _)
    rcases List.mem_map.mp hu2 with ⟨raw, _, rfl⟩
    exact ⟨raw, rfl⟩

/-- C5 witness: a single-token URL is upgraded; a token-free URL is kept. -/
theorem image_urls_high_res_token_witness :
    strIncludes (normalizeImg "https://cf.bstatic.com/xdata/images/hotel/max300/a.jpg")
      "max1024x768" = true ∧
    normalizeImg "https://example.com/a.jpg" = "https://example.com/a.jpg" :=
  ⟨image_urls_high_res_token.2.1 _ (by decide),
    image_urls_high_res_token.2.2.1 _ (by decide)⟩

/-- C6 counterexample: a raw name starting with a doubled category word is
stripped only once, so the emitted place name still begins with
`Restaurant`, refuting "never begins with one of the stripped words". -/
theorem nearby_place_keeps_category_word_cex :
    (extractNearbyPlaces [⟨some "Restaurants nearby",
        [⟨some "Restaurant Restaurant Dar Roumana", some "250 m"⟩]⟩]).map
        (fun p => p.place) = ["Restaurant Dar Roumana"] ∧
    beginsCat "Restaurant Dar Roumana" = true :=
  ⟨by decide, by decide⟩

/-- C6 amended: the leading category word is stripped exactly once before
the record is emitted, so the emitted place name begins with a category
word only when the raw name begins with a category word immediately
followed (after whitespace) by another one. -/
theorem nearby_place_strip_once :
    (∀ s : String, doubledCat s = false → beginsCat (stripCat s) = false) ∧
    (∀ blocks : List PoiBlock,
      (∀ b ∈ blocks, ∀ it ∈ b.items,
        doubledCat ((it.nameEl.map jsTrim).getD "") = false) →
      ∀ p ∈ extractNearbyPlaces blocks, beginsCat p.place = false) := by
  have main : ∀ s : String, doubledCat s = false → beginsCat (stripCat s) = false := by
    intro s hd
    simp only [doubledCat, catList, List.any_cons, List.any_nil, Bool.or_false,
      Bool.or_eq_false_iff, Bool.and_eq_false_iff] at hd
    obtain ⟨h1, h2, h3⟩ := hd
    simp only [stripCat, stripCatL]
    by_cases c1 : ciStartsL s.data "restaurant".data = true
    · rw [if_pos c1]
      rcases h1 with h1 | h1
      · exact absurd c1 (by simpa [ciStarts] using h1)
      · exact h1
    · rw [if_neg c1]
      by_cases c2 : ciStartsL s.data "train".data = true
      · rw [if_pos c2]
        rcases h2 with h2 | h2
        · exact absurd c2 (by simpa [ciStarts] using h2)
        · exact h2
      · rw [if_neg c2]
        by_cases c3 : ciStartsL s.data "airport".data = true
        · rw [if_pos c3]
          rcases h3 with h3 | h3
          · exact absurd c3 (by simpa [ciStarts] using h3)
          · exact h3
        · rw [if_neg c3]
          simp only [Bool.not_eq_true] at c1 c2 c3
          show beginsCat s = false
          simp [beginsCat, catList, ciStarts, c1, c2, c3]
  refine ⟨main, ?_⟩
  intro blocks hall p hp
  have hmem : p ∈ allPlaces blocks :=
    List.Sublist.mem hp (dedupByKey_sublist placeKey [] (allPlaces blocks))
  simp only [allPlaces, List.mem_flatMap] at hmem
  obtain ⟨b, hb, hpb⟩ := hmem
  rcases List.mem_map.mp hpb with ⟨it, hit, rfl⟩
  exact main _ (hall b hb it hit)

/-- C6 witness: a singly-prefixed raw name loses its category word. -/
theorem nearby_place_strip_once_witness :
    beginsCat (stripCat "Restaurant La Table") = false ∧
    beginsCat (Place.place ⟨"La Table", "100 m", "restaurants"⟩) = false :=
  ⟨nearby_place_strip_once.1 "Restaurant La Table" (by decide),
    nearby_place_strip_once.2
      [⟨some "Restaurants", [⟨some "Restaurant La Table", some "100 m"⟩]⟩]
      (by decide) ⟨"La Table", "100 m", "restaurants"⟩ (by decide)⟩

/-- C7 counterexample: only the first comma of the raw score text is
converted, so a score with two commas is returned with a comma in it,
refuting "every comma ... having been converted to a period". -/
theorem rating_score_retains_comma_cex :
    (extractRating (some ["7,5,0", "1 234 reviews"])).score = some "7.5,0" ∧
    strIncludes "7.5,0" "," = true :=
  ⟨by decide, by decide⟩

/-- C7 amended: `extractRating` is total; an absent score container yields
`{score := none, totalReviews := none}`; a returned score is the trimmed
first sub-element text with its *first* comma converted to a period -- so
it contains no comma whenever the raw text had at most one. -/
theorem rating_null_safe_first_comma :
    extractRating none = { score := none, totalReviews := none } ∧
    (∀ (texts : List String) (s : String),
      (extractRating (some texts)).score = some s →
        s = ratingElement (texts.getD 0 "") ∧
        ((jsTrim (texts.getD 0 "")).data.count ',' ≤ 1 →
          strIncludes s "," = false)) := by
  refine ⟨rfl, ?_⟩
  intro texts s h
  simp only [extractRating] at h
  split at h
  next hz => cases h
  next hz =>
    obtain rfl := Option.some.inj h
    have he0 : (texts.map ratingElement).getD 0 "" = ratingElement (texts.getD 0 "") := by
      cases texts with
      | nil => simp [ratingElement, jsReplaceFirst, jsTrim]; decide
      | cons t ts => simp
    refine ⟨he0, ?_⟩
    intro hc
    rw [he0]
    have hnotin : ',' ∉ replaceFirstL [','] ['.'] (trimL (texts.getD 0 "").data) :=
      replaceFirst_single_char ',' '.' (by decide) _ hc
    have hne : includesL [','] (ratingElement (texts.getD 0 "")).data ≠ true := by
      intro hh
      exact hnotin ((includesL_singleton ',' _).mp hh)
    cases hb : includesL [','] (ratingElement (texts.getD 0 "")).data with
    | false => exact hb
    | true => exact absurd hb hne

/-- C7 witness: a typical single-comma score loses its comma. -/
theorem rating_null_safe_first_comma_witness :
    (extractRating (some ["8,7", "1 234 reviews"])).score = some "8.7" ∧
    strIncludes "8.7" "," = false :=
  ⟨by decide,
    ((rating_null_safe_first_comma.2 ["8,7", "1 234 reviews"] "8.7" (by decide)).2
      (by decide))⟩

end BookingScraper
